import Mathlib

/-!
Verification of the entity/relation extraction steps of kg-gen
(`src/kg_gen/steps/_1_get_entities.py` and `src/kg_gen/steps/_2_get_relations.py`).

The two functions are shallowly embedded: the external language-model call is
modelled as an explicit outcome (`ModelCall`), which either raises or returns a
list of parsed items; Python dicts returned by the model are records of
optional string fields (a `none` field models an absent key, matching the
`KeyError` / pydantic `ValidationError` behaviour of the source); the Python
`warnings.warn` calls are counted in the result; the entity-to-type and
predicate-to-type dictionaries are insertion-ordered association lists with
Python dict update semantics.
-/

namespace KgGen

/-- Python truthiness of an `Optional[List[...]]` value: `None` and `[]` are
falsy, a non-empty list is truthy (the source tests `if node_types:` and
`if edge_types:` and `if examples:`). -/
def optListTruthy {α : Type} : Option (List α) → Bool
  | none => false
  | some [] => false
  | some (_ :: _) => true

/-- Insertion into a Python dict modelled as an insertion-ordered association
list: assigning to an existing key updates its value in place, a new key is
appended at the end. -/
def dictInsert (d : List (String × String)) (k v : String) : List (String × String) :=
  if k ∈ d.map Prod.fst then
    d.map (fun p => if p.1 = k then (k, v) else p)
  else
    d ++ [(k, v)]

/-- Outcome of the guarded `dspy.Predict(Signature)(**params)` call: the
extractor either raises some exception or returns a parsed list of items. -/
inductive ModelCall (α : Type) where
  | raised
  | ok (items : List α)
deriving DecidableEq

/- ### Entity extraction (`_1_get_entities.py`) -/

/-- A dict item of the model output `result.entities`. A `none` field models a
missing key (or a `None` value, which behaves identically under `item.get`). -/
structure EItem where
  entity : Option String
  type : Option String
deriving DecidableEq

/-- A value of the heterogeneous list returned as first component by
`get_entities`: the typed path returns plain strings, the untyped path returns
the raw dict items of the model output. -/
inductive PyEnt where
  | pystr (s : String)
  | pydict (it : EItem)
deriving DecidableEq

/-- The four entity prompt signatures selected by (has types) x (is conversation). -/
inductive ESig where
  | textEntities
  | conversationEntities
  | textEntitiesWithTypes
  | conversationEntitiesWithTypes
deriving DecidableEq

/-- A few-shot demonstration for entity extraction (`dspy.Example` with
`source_text` and `entities` fields). -/
structure EDemo where
  source_text : String
  entities : List EItem
deriving DecidableEq

/-- The keyword parameter dict submitted to the entity extractor. `none` in an
optional field means the key is not present in the dict. -/
structure EParams where
  source_text : String
  node_types : Option (List String)
  require_type : Option Bool
  demos : Option (List EDemo)
deriving DecidableEq

/-- Full observable result of a `get_entities` call: chosen signature,
submitted params, returned entity list, returned type mapping, and the number
of `warnings.warn` calls issued. -/
structure EntResult where
  sig : ESig
  params : EParams
  entities : List PyEnt
  entity_types : Option (List (String × String))
  warnings : Nat
deriving DecidableEq

/-- One iteration of the typed-path loop of `get_entities`: `item["entity"]`
raises a `KeyError` on a missing key, which the `except Exception` clause
silently swallows (`continue`, no warning — the `except ValidationError`
warning branch is unreachable for dict subscripting); otherwise the entity is
appended and, if `item.get("type")` is truthy (present, non-`None` and
non-empty), the type mapping is updated. -/
def entityStep (acc : List String × List (String × String)) (item : EItem) :
    List String × List (String × String) :=
  match item.entity with
  | none => acc
  | some e =>
    (acc.1 ++ [e],
      match item.type with
      | none => acc.2
      | some t => if t = "" then acc.2 else dictInsert acc.2 e t)

/-- Shallow embedding of `get_entities`. The model-call outcome is passed in as
`call`; everything else mirrors the source line by line. -/
def get_entities (input_data : String) (is_conversation : Bool)
    (node_types : Option (List String)) (require_node_type : Bool)
    (examples : Option (List EDemo)) (call : ModelCall EItem) : EntResult :=
  let typed := optListTruthy node_types
  let sig : ESig :=
    if typed then
      if is_conversation then ESig.conversationEntitiesWithTypes
      else ESig.textEntitiesWithTypes
    else
      if is_conversation then ESig.conversationEntities
      else ESig.textEntities
  let demos : Option (List EDemo) :=
    if optListTruthy examples then examples else none
  let params : EParams :=
    if typed then ⟨input_data, node_types, some require_node_type, demos⟩
    else ⟨input_data, none, none, demos⟩
  match call with
  | ModelCall.raised => ⟨sig, params, [], none, 1⟩
  | ModelCall.ok items =>
    if typed then
      let r := items.foldl entityStep ([], [])
      ⟨sig, params, r.1.map PyEnt.pystr, some r.2, 0⟩
    else
      ⟨sig, params, items.map PyEnt.pydict, none, 0⟩

/- ### Relation extraction (`_2_get_relations.py`) -/

/-- A dict item of the model output `result.relations`. `none` models a missing
key. `predicate_type` is only consulted in the typed path. -/
structure RItem where
  subject : Option String
  predicate : Option String
  object : Option String
  predicate_type : Option String
deriving DecidableEq

/-- The four relation prompt signatures. -/
inductive RSig where
  | extractTextRelations
  | extractConversationRelations
  | extractTextRelationsWithTypes
  | extractConversationRelationsWithTypes
deriving DecidableEq

/-- A few-shot demonstration for relation extraction. -/
structure RDemo where
  source_text : String
  relations : List RItem
deriving DecidableEq

/-- The keyword parameter dict submitted to the relation extractor. -/
structure RParams where
  source_text : String
  entities : List String
  edge_types : Option (List String)
  require_type : Option Bool
  demos : Option (List RDemo)
deriving DecidableEq

/-- Full observable result of a `get_relations` call. -/
structure RelResult where
  sig : RSig
  params : RParams
  relations : List (String × String × String)
  edge_type_map : Option (List (String × String))
  warnings : Nat
deriving DecidableEq

/-- Pydantic validation of one relation item: `Relation(**item)` (and likewise
`RelationWithType(**item)`) succeeds exactly when `subject`, `predicate` and
`object` are all present; a missing required field raises a `ValidationError`.
`predicate_type` is optional with default `None`, and an extra key is ignored
by the plain `Relation` model. -/
def validateR (it : RItem) : Option (String × String × String) :=
  match it.subject, it.predicate, it.object with
  | some s, some p, some o => some (s, p, o)
  | _, _, _ => none

/-- Update of the predicate-to-type dict for a kept relation, the
`if edge_types and rel.predicate_type:` guard of the source: only in the typed
path, and only when `rel.predicate_type` is truthy (present and non-empty), is
`edge_type_map[rel.predicate] = rel.predicate_type` executed. -/
def keptMap (typed : Bool) (b : List (String × String)) (p : String)
    (pt : Option String) : List (String × String) :=
  if typed then
    match pt with
    | none => b
    | some t => if t = "" then b else dictInsert b p t
  else b

/-- One iteration of the relation loop: a `ValidationError` warns and skips;
a validated relation is kept only if its subject and object are both members of
the supplied entity list; for kept relations in the typed path a truthy
`rel.predicate_type` is recorded in the predicate-to-type dict. The
accumulator is (relations, edge type map, warning count). -/
def relationStep (ents : List String) (typed : Bool)
    (acc : List (String × String × String) × List (String × String) × Nat)
    (it : RItem) :
    List (String × String × String) × List (String × String) × Nat :=
  match validateR it with
  | none => (acc.1, acc.2.1, acc.2.2 + 1)
  | some (s, p, o) =>
    if s ∈ ents ∧ o ∈ ents then
      (acc.1 ++ [(s, p, o)], keptMap typed acc.2.1 p it.predicate_type, acc.2.2)
    else acc

/-- Shallow embedding of `get_relations`. -/
def get_relations (input_data : String) (entities : List String)
    (is_conversation : Bool) (edge_types : Option (List String))
    (require_edge_type : Bool) (examples : Option (List RDemo))
    (call : ModelCall RItem) : RelResult :=
  let typed := optListTruthy edge_types
  let sig : RSig :=
    if typed then
      if is_conversation then RSig.extractConversationRelationsWithTypes
      else RSig.extractTextRelationsWithTypes
    else
      if is_conversation then RSig.extractConversationRelations
      else RSig.extractTextRelations
  let demos : Option (List RDemo) :=
    if optListTruthy examples then examples else none
  let params : RParams :=
    if typed then ⟨input_data, entities, edge_types, some require_edge_type, demos⟩
    else ⟨input_data, entities, none, none, demos⟩
  match call with
  | ModelCall.raised => ⟨sig, params, [], none, 1⟩
  | ModelCall.ok items =>
    let r := items.foldl (relationStep entities typed) ([], [], 0)
    ⟨sig, params, r.1, if typed then some r.2.1 else none, r.2.2⟩

/- ### Helper lemmas -/

/-- Every pair of `dictInsert d k v` is either the inserted pair or a pair of
the original dict. -/
theorem dictInsert_mem {d : List (String × String)} {k v : String}
    {kv : String × String} (h : kv ∈ dictInsert d k v) : kv = (k, v) ∨ kv ∈ d := by
  unfold dictInsert at h
  split at h
  · rcases List.mem_map.mp h with ⟨p, hp, he⟩
    by_cases hk : p.1 = k
    · rw [if_pos hk] at he
      exact Or.inl he.symm
    · rw [if_neg hk] at he
      exact Or.inr (he ▸ hp)
  · rcases List.mem_append.mp h with h1 | h1
    · exact Or.inr h1
    · exact Or.inl (List.mem_singleton.mp h1)

/-- Invariant of the relation loop: all accumulated triples have both
endpoints in the supplied entity list. -/
theorem relFold_endpoints (ents : List String) (typed : Bool)
    (items : List RItem)
    (acc : List (String × String × String) × List (String × String) × Nat)
    (hacc : ∀ s p o, (s, p, o) ∈ acc.1 → s ∈ ents ∧ o ∈ ents) :
    ∀ s p o, (s, p, o) ∈ (items.foldl (relationStep ents typed) acc).1 →
      s ∈ ents ∧ o ∈ ents := by
  induction items generalizing acc with
  | nil => exact hacc
  | cons it rest ih =>
    rw [List.foldl_cons]
    apply ih
    intro s p o hmem
    unfold relationStep at hmem
    split at hmem
    · exact hacc s p o hmem
    · rename_i s1 p1 o1 heq
      split at hmem
      · rename_i hin
        rcases List.mem_append.mp hmem with h1 | h1
        · exact hacc s p o h1
        · have h2 := List.mem_singleton.mp h1
          rw [Prod.mk.injEq, Prod.mk.injEq] at h2
          exact ⟨h2.1 ▸ hin.1, h2.2.2 ▸ hin.2⟩
      · exact hacc s p o hmem

/-- Invariant of the typed entity loop: every key of the accumulated type
mapping is among the accumulated entities. -/
theorem entFold_keys (items : List EItem)
    (acc : List String × List (String × String))
    (hacc : ∀ kv ∈ acc.2, kv.1 ∈ acc.1) :
    ∀ kv ∈ (items.foldl entityStep acc).2, kv.1 ∈ (items.foldl entityStep acc).1 := by
  induction items generalizing acc with
  | nil => exact hacc
  | cons it rest ih =>
    rw [List.foldl_cons]
    apply ih
    intro kv hkv
    obtain ⟨ent, ty⟩ := it
    cases ent with
    | none => exact hacc kv hkv
    | some e =>
      cases ty with
      | none => exact List.mem_append_left _ (hacc kv hkv)
      | some t =>
        have hkv2 : kv ∈ (if t = "" then acc.2 else dictInsert acc.2 e t) := hkv
        by_cases h0 : t = ""
        · rw [if_pos h0] at hkv2
          exact List.mem_append_left _ (hacc kv hkv2)
        · rw [if_neg h0] at hkv2
          rcases dictInsert_mem hkv2 with h1 | h1
          · rw [h1]
            exact List.mem_append_right _ (List.mem_singleton.mpr rfl)
          · exact List.mem_append_left _ (hacc kv h1)

/-- Step equation: an item failing pydantic validation only bumps the warning
count. -/
theorem relationStep_invalid (ents : List String) (typed : Bool)
    (a : List (String × String × String)) (b : List (String × String)) (w : Nat)
    (it : RItem) (hv : validateR it = none) :
    relationStep ents typed (a, b, w) it = (a, b, w + 1) := by
  simp [relationStep, hv]

/-- Step equation: a validated relation with both endpoints in the entity list
is appended and the type dict updated. -/
theorem relationStep_kept (ents : List String) (typed : Bool)
    (a : List (String × String × String)) (b : List (String × String)) (w : Nat)
    (it : RItem) (s p o : String) (hv : validateR it = some (s, p, o))
    (hs : s ∈ ents) (ho : o ∈ ents) :
    relationStep ents typed (a, b, w) it =
      (a ++ [(s, p, o)], keptMap typed b p it.predicate_type, w) := by
  simp [relationStep, hv, hs, ho]

/-- Step equation: a validated relation with an endpoint outside the entity
list is dropped without trace. -/
theorem relationStep_filtered (ents : List String) (typed : Bool)
    (a : List (String × String × String)) (b : List (String × String)) (w : Nat)
    (it : RItem) (s p o : String) (hv : validateR it = some (s, p, o))
    (hno : ¬(s ∈ ents ∧ o ∈ ents)) :
    relationStep ents typed (a, b, w) it = (a, b, w) := by
  simp [relationStep, hv, hno]

/-- A pair of the updated predicate-to-type dict is either the new entry (key
is the kept predicate and the value its non-empty type) or an old pair. -/
theorem keptMap_mem {typed : Bool} {b : List (String × String)} {p : String}
    {pt : Option String} {kv : String × String} (h : kv ∈ keptMap typed b p pt) :
    (kv.1 = p ∧ kv.2 ≠ "") ∨ kv ∈ b := by
  unfold keptMap at h
  split at h
  · split at h
    · exact Or.inr h
    · rename_i t
      split at h
      · exact Or.inr h
      · rename_i h0
        rcases dictInsert_mem h with h1 | h1
        · exact Or.inl ⟨by rw [h1], by rw [h1]; exact h0⟩
        · exact Or.inr h1
  · exact Or.inr h

/-- The warning count threads additively through the relation loop and does not
influence the relations list or the type dict. -/
theorem relFold_shift (ents : List String) (typed : Bool) (items : List RItem)
    (a : List (String × String × String)) (b : List (String × String)) (w : Nat) :
    items.foldl (relationStep ents typed) (a, b, w) =
      ((items.foldl (relationStep ents typed) (a, b, 0)).1,
        (items.foldl (relationStep ents typed) (a, b, 0)).2.1,
        (items.foldl (relationStep ents typed) (a, b, 0)).2.2 + w) := by
  induction items generalizing a b w with
  | nil => simp
  | cons it rest ih =>
    rw [List.foldl_cons, List.foldl_cons]
    rcases hv : validateR it with _ | ⟨s1, p1, o1⟩
    · rw [relationStep_invalid ents typed a b w it hv,
        relationStep_invalid ents typed a b 0 it hv,
        ih a b (w + 1), ih a b (0 + 1)]
      simp only [Prod.mk.injEq]
      refine ⟨trivial, trivial, ?_⟩
      omega
    · by_cases hin : s1 ∈ ents ∧ o1 ∈ ents
      · rw [relationStep_kept ents typed a b w it s1 p1 o1 hv hin.1 hin.2,
          relationStep_kept ents typed a b 0 it s1 p1 o1 hv hin.1 hin.2]
        exact ih (a ++ [(s1, p1, o1)]) (keptMap typed b p1 it.predicate_type) w
      · rw [relationStep_filtered ents typed a b w it s1 p1 o1 hv hin,
          relationStep_filtered ents typed a b 0 it s1 p1 o1 hv hin]
        exact ih a b w

/-- Invariant of the typed relation loop: every pair of the accumulated
predicate-to-type dict has a non-empty type and its key is the predicate of an
accumulated (hence kept) triple. -/
theorem relFold_map_sound (ents : List String) (items : List RItem)
    (acc : List (String × String × String) × List (String × String) × Nat)
    (hacc : ∀ kv ∈ acc.2.1, kv.2 ≠ "" ∧ ∃ s o, (s, kv.1, o) ∈ acc.1) :
    ∀ kv ∈ (items.foldl (relationStep ents true) acc).2.1,
      kv.2 ≠ "" ∧ ∃ s o, (s, kv.1, o) ∈ (items.foldl (relationStep ents true) acc).1 := by
  induction items generalizing acc with
  | nil => exact hacc
  | cons it rest ih =>
    rw [List.foldl_cons]
    apply ih
    obtain ⟨a, b, w⟩ := acc
    intro kv hkv
    rcases hv : validateR it with _ | ⟨s1, p1, o1⟩
    · rw [relationStep_invalid ents true a b w it hv] at hkv ⊢
      exact hacc kv hkv
    · by_cases hin : s1 ∈ ents ∧ o1 ∈ ents
      · rw [relationStep_kept ents true a b w it s1 p1 o1 hv hin.1 hin.2] at hkv ⊢
        have hkv2 : kv ∈ keptMap true b p1 it.predicate_type := hkv
        rcases keptMap_mem hkv2 with ⟨hk, hne⟩ | h1
        · refine ⟨hne, s1, o1, ?_⟩
          rw [hk]
          exact List.mem_append_right _ (List.mem_singleton.mpr rfl)
        · obtain ⟨hne, s0, o0, hmem⟩ := hacc kv h1
          exact ⟨hne, s0, o0, List.mem_append_left _ hmem⟩
      · rw [relationStep_filtered ents true a b w it s1 p1 o1 hv hin] at hkv ⊢
        exact hacc kv hkv

/- ### Claims -/

/-- C1: every triple in the relations list returned by a successful
`get_relations` call has both its subject and its object in the supplied
entity list. -/
theorem c1_relation_endpoints_in_entities (i : String) (ents : List String)
    (c : Bool) (et : Option (List String)) (r : Bool)
    (ex : Option (List RDemo)) (items : List RItem) (s p o : String)
    (h : (s, p, o) ∈ (get_relations i ents c et r ex (ModelCall.ok items)).relations) :
    s ∈ ents ∧ o ∈ ents :=
  relFold_endpoints ents (optListTruthy et) items ([], [], 0)
    (fun _ _ _ hmem => absurd hmem (List.not_mem_nil _)) s p o h

/-- C1 witness: with entities `["Alice", "Bob"]` and model output
`[Alice knows Bob, Alice knows Carol]`, the kept triple `Alice knows Bob` has
both endpoints among the entities. -/
theorem c1_witness : "Alice" ∈ ["Alice", "Bob"] ∧ "Bob" ∈ ["Alice", "Bob"] :=
  c1_relation_endpoints_in_entities "t" ["Alice", "Bob"] false none true none
    [⟨some "Alice", some "knows", some "Bob", none⟩,
      ⟨some "Alice", some "knows", some "Carol", none⟩]
    "Alice" "knows" "Bob" (by decide)

/-- C2: if the underlying model call raises any exception, `get_entities`
returns the empty list paired with a `None` type mapping and issues exactly one
warning, and likewise `get_relations`. -/
theorem c2_raised_empty_one_warning (i1 : String) (c1 : Bool)
    (nt : Option (List String)) (r1 : Bool) (ex1 : Option (List EDemo))
    (i2 : String) (ents : List String) (c2 : Bool) (et : Option (List String))
    (r2 : Bool) (ex2 : Option (List RDemo)) :
    ((get_entities i1 c1 nt r1 ex1 ModelCall.raised).entities = [] ∧
      (get_entities i1 c1 nt r1 ex1 ModelCall.raised).entity_types = none ∧
      (get_entities i1 c1 nt r1 ex1 ModelCall.raised).warnings = 1) ∧
    ((get_relations i2 ents c2 et r2 ex2 ModelCall.raised).relations = [] ∧
      (get_relations i2 ents c2 et r2 ex2 ModelCall.raised).edge_type_map = none ∧
      (get_relations i2 ents c2 et r2 ex2 ModelCall.raised).warnings = 1) :=
  ⟨⟨rfl, rfl, rfl⟩, ⟨rfl, rfl, rfl⟩⟩

/-- C6: with `node_types = ["Person"]` and `require_node_type = True`, on model
output `[{"entity": "Alice", "type": "Person"}, {"entity": "XYZ"}]` the function
returns entity list `["Alice", "XYZ"]` and type map `{"Alice": "Person"}`; the
untyped entity `"XYZ"` is kept even though `require_node_type` is `True`. -/
theorem c6_example_scenario :
    (get_entities "t" false (some ["Person"]) true none
        (ModelCall.ok [⟨some "Alice", some "Person"⟩, ⟨some "XYZ", none⟩])).entities =
      [PyEnt.pystr "Alice", PyEnt.pystr "XYZ"] ∧
    (get_entities "t" false (some ["Person"]) true none
        (ModelCall.ok [⟨some "Alice", some "Person"⟩, ⟨some "XYZ", none⟩])).entity_types =
      some [("Alice", "Person")] := by
  constructor <;> rfl

/-- C8: without truthy `node_types`, on success `get_entities` returns the raw
extracted item list unchanged (no per-item validation or filtering), a `None`
type mapping, and no warning. -/
theorem c8_untyped_returns_raw_list (i : String) (c : Bool)
    (nt : Option (List String)) (r : Bool) (ex : Option (List EDemo))
    (items : List EItem) (huntyped : optListTruthy nt = false) :
    (get_entities i c nt r ex (ModelCall.ok items)).entities =
      items.map PyEnt.pydict ∧
    (get_entities i c nt r ex (ModelCall.ok items)).entity_types = none ∧
    (get_entities i c nt r ex (ModelCall.ok items)).warnings = 0 := by
  refine ⟨?_, ?_, ?_⟩ <;> simp [get_entities, huntyped]

/-- C8 witness: an item without an entity field survives the untyped path
untouched. -/
theorem c8_witness :
    (get_entities "t" false none true none
        (ModelCall.ok [⟨none, none⟩, ⟨some "Alice", none⟩])).entities =
      [EItem.mk none none, EItem.mk (some "Alice") none].map PyEnt.pydict ∧
    (get_entities "t" false none true none
        (ModelCall.ok [⟨none, none⟩, ⟨some "Alice", none⟩])).entity_types = none ∧
    (get_entities "t" false none true none
        (ModelCall.ok [⟨none, none⟩, ⟨some "Alice", none⟩])).warnings = 0 :=
  c8_untyped_returns_raw_list "t" false none true none
    [⟨none, none⟩, ⟨some "Alice", none⟩] rfl

/-- C9: passing an empty list for `node_types` / `edge_types` behaves exactly
like passing `None`: same signature choice, same submitted params (no type
parameters), and the same result, in particular a `None` type mapping. -/
theorem c9_empty_list_behaves_like_none (i1 : String) (c1 : Bool) (r1 : Bool)
    (ex1 : Option (List EDemo)) (call1 : ModelCall EItem) (i2 : String)
    (ents : List String) (c2 : Bool) (r2 : Bool) (ex2 : Option (List RDemo))
    (call2 : ModelCall RItem) :
    get_entities i1 c1 (some []) r1 ex1 call1 =
      get_entities i1 c1 none r1 ex1 call1 ∧
    get_relations i2 ents c2 (some []) r2 ex2 call2 =
      get_relations i2 ents c2 none r2 ex2 call2 :=
  ⟨rfl, rfl⟩

/-- C10: the returned predicate-to-type mapping of `get_relations` is `None`
exactly when `edge_types` is absent/empty or the model call raised; on a
successful typed call it is always a dictionary (possibly empty). -/
theorem c10_edge_type_map_none_iff (i : String) (ents : List String) (c : Bool)
    (et : Option (List String)) (r : Bool) (ex : Option (List RDemo))
    (call : ModelCall RItem) :
    (get_relations i ents c et r ex call).edge_type_map = none ↔
      (optListTruthy et = false ∨ call = ModelCall.raised) := by
  cases call with
  | raised => simp [get_relations]
  | ok items =>
    cases h : optListTruthy et with
    | false => simp [get_relations, h]
    | true => simp [get_relations, h]

/-- C3: on a successful typed `get_entities` call, every key of the returned
entity-to-type mapping is an element of the returned entity list. -/
theorem c3_type_map_keys_in_entities (i : String) (c : Bool)
    (nt : Option (List String)) (r : Bool) (ex : Option (List EDemo))
    (items : List EItem) (m : List (String × String))
    (htyped : optListTruthy nt = true)
    (hm : (get_entities i c nt r ex (ModelCall.ok items)).entity_types = some m)
    (kv : String × String) (hkv : kv ∈ m) :
    PyEnt.pystr kv.1 ∈ (get_entities i c nt r ex (ModelCall.ok items)).entities := by
  have h1 : (get_entities i c nt r ex (ModelCall.ok items)).entity_types =
      some (items.foldl entityStep ([], [])).2 := by
    simp [get_entities, htyped]
  have h2 : (get_entities i c nt r ex (ModelCall.ok items)).entities =
      (items.foldl entityStep ([], [])).1.map PyEnt.pystr := by
    simp [get_entities, htyped]
  rw [h1] at hm
  rw [h2]
  exact List.mem_map.mpr ⟨kv.1,
    entFold_keys items ([], []) (fun _ h => absurd h (List.not_mem_nil _)) kv
      ((Option.some.inj hm).symm ▸ hkv), rfl⟩

/-- C3 witness at a concrete typed call. -/
theorem c3_witness :
    PyEnt.pystr "Alice" ∈ (get_entities "t" false (some ["Person"]) true none
      (ModelCall.ok [⟨some "Alice", some "Person"⟩, ⟨some "XYZ", none⟩])).entities :=
  c3_type_map_keys_in_entities "t" false (some ["Person"]) true none
    [⟨some "Alice", some "Person"⟩, ⟨some "XYZ", none⟩] [("Alice", "Person")]
    rfl (by decide) ("Alice", "Person") (by decide)

/-- C4 counterexample: in the typed path, the item `{"type": "Person"}` (no
usable entity field) is skipped, but no warning is issued — `item["entity"]`
raises a `KeyError`, which the bare `except Exception: continue` swallows
silently; the warning-emitting `except ValidationError` branch never fires for
a dict missing a key. The claim that such an item is skipped "with a warning
being issued" is therefore false. -/
theorem c4_counterexample :
    (get_entities "t" false (some ["Person"]) true none
        (ModelCall.ok [⟨none, some "Person"⟩])).entities = [] ∧
    (get_entities "t" false (some ["Person"]) true none
        (ModelCall.ok [⟨none, some "Person"⟩])).warnings = 0 :=
  ⟨rfl, rfl⟩

/-- C4 (amended): in the typed path of `get_entities`, every returned item
that is missing a usable entity field is skipped silently — no warning is
issued — and processing of the remaining items continues: the result is
exactly the result of the run without that item, and the run issues no
warnings at all. -/
theorem c4_missing_entity_skipped_silently (i : String) (c : Bool)
    (nt : Option (List String)) (r : Bool) (ex : Option (List EDemo))
    (pre post : List EItem) (item : EItem)
    (htyped : optListTruthy nt = true) (hmiss : item.entity = none) :
    get_entities i c nt r ex (ModelCall.ok (pre ++ item :: post)) =
      get_entities i c nt r ex (ModelCall.ok (pre ++ post)) ∧
    (get_entities i c nt r ex (ModelCall.ok (pre ++ item :: post))).warnings = 0 := by
  have hstep : ∀ acc : List String × List (String × String),
      entityStep acc item = acc := by
    intro acc
    simp [entityStep, hmiss]
  have hfold : (pre ++ item :: post).foldl entityStep ([], []) =
      (pre ++ post).foldl entityStep ([], []) := by
    rw [List.foldl_append, List.foldl_append, List.foldl_cons, hstep]
  constructor
  · simp [get_entities, htyped, hfold]
  · simp [get_entities, htyped]

/-- C4 witness: the entity-less item between two valid items changes nothing
and triggers no warning. -/
theorem c4_witness :
    (get_entities "t" false (some ["Person"]) true none
        (ModelCall.ok [⟨some "Alice", some "Person"⟩, ⟨none, some "Person"⟩,
          ⟨some "XYZ", none⟩])) =
      (get_entities "t" false (some ["Person"]) true none
        (ModelCall.ok [⟨some "Alice", some "Person"⟩, ⟨some "XYZ", none⟩])) ∧
    (get_entities "t" false (some ["Person"]) true none
        (ModelCall.ok [⟨some "Alice", some "Person"⟩, ⟨none, some "Person"⟩,
          ⟨some "XYZ", none⟩])).warnings = 0 :=
  c4_missing_entity_skipped_silently "t" false (some ["Person"]) true none
    [⟨some "Alice", some "Person"⟩] [⟨some "XYZ", none⟩] ⟨none, some "Person"⟩
    rfl rfl

/-- C5: in `get_relations`, an item that fails schema validation is skipped
with exactly one warning, and processing of the remaining items continues:
relations and type mapping are those of the run without the invalid item, and
the warning count is one higher. -/
theorem c5_invalid_relation_warned_and_skipped (i : String) (ents : List String)
    (c : Bool) (et : Option (List String)) (r : Bool) (ex : Option (List RDemo))
    (pre post : List RItem) (bad : RItem) (hbad : validateR bad = none) :
    (get_relations i ents c et r ex (ModelCall.ok (pre ++ bad :: post))).relations =
      (get_relations i ents c et r ex (ModelCall.ok (pre ++ post))).relations ∧
    (get_relations i ents c et r ex (ModelCall.ok (pre ++ bad :: post))).edge_type_map =
      (get_relations i ents c et r ex (ModelCall.ok (pre ++ post))).edge_type_map ∧
    (get_relations i ents c et r ex (ModelCall.ok (pre ++ bad :: post))).warnings =
      (get_relations i ents c et r ex (ModelCall.ok (pre ++ post))).warnings + 1 := by
  have key :
      ((pre ++ bad :: post).foldl (relationStep ents (optListTruthy et)) ([], [], 0)).1 =
        ((pre ++ post).foldl (relationStep ents (optListTruthy et)) ([], [], 0)).1 ∧
      ((pre ++ bad :: post).foldl (relationStep ents (optListTruthy et)) ([], [], 0)).2.1 =
        ((pre ++ post).foldl (relationStep ents (optListTruthy et)) ([], [], 0)).2.1 ∧
      ((pre ++ bad :: post).foldl (relationStep ents (optListTruthy et)) ([], [], 0)).2.2 =
        ((pre ++ post).foldl (relationStep ents (optListTruthy et)) ([], [], 0)).2.2 + 1 := by
    rw [List.foldl_append, List.foldl_append, List.foldl_cons]
    generalize List.foldl (relationStep ents (optListTruthy et)) ([], [], 0) pre = A
    obtain ⟨a, b, w⟩ := A
    rw [relationStep_invalid ents (optListTruthy et) a b w bad hbad,
      relFold_shift ents (optListTruthy et) post a b (w + 1),
      relFold_shift ents (optListTruthy et) post a b w]
    refine ⟨rfl, rfl, ?_⟩
    dsimp only
    omega
  refine ⟨?_, ?_, ?_⟩
  · simp only [get_relations]
    exact key.1
  · simp only [get_relations]
    rw [key.2.1]
  · simp only [get_relations]
    exact key.2.2

/-- C5 witness: an empty dict among the relation items is skipped with one
warning while the surrounding valid relations are processed normally. -/
theorem c5_witness :
    (get_relations "t" ["Alice", "Bob"] false none true none
        (ModelCall.ok [⟨some "Alice", some "knows", some "Bob", none⟩,
          ⟨none, none, none, none⟩])).relations =
      (get_relations "t" ["Alice", "Bob"] false none true none
        (ModelCall.ok [⟨some "Alice", some "knows", some "Bob", none⟩])).relations ∧
    (get_relations "t" ["Alice", "Bob"] false none true none
        (ModelCall.ok [⟨some "Alice", some "knows", some "Bob", none⟩,
          ⟨none, none, none, none⟩])).edge_type_map =
      (get_relations "t" ["Alice", "Bob"] false none true none
        (ModelCall.ok [⟨some "Alice", some "knows", some "Bob", none⟩])).edge_type_map ∧
    (get_relations "t" ["Alice", "Bob"] false none true none
        (ModelCall.ok [⟨some "Alice", some "knows", some "Bob", none⟩,
          ⟨none, none, none, none⟩])).warnings =
      (get_relations "t" ["Alice", "Bob"] false none true none
        (ModelCall.ok [⟨some "Alice", some "knows", some "Bob", none⟩])).warnings + 1 :=
  c5_invalid_relation_warned_and_skipped "t" ["Alice", "Bob"] false none true none
    [⟨some "Alice", some "knows", some "Bob", none⟩] [] ⟨none, none, none, none⟩ rfl

/-- C7: on a successful typed `get_relations` call, every key of the returned
predicate-to-type mapping carries a non-empty type and is the predicate of
some triple of the returned relations list; no entry stems from a filtered-out
or untyped relation. -/
theorem c7_type_map_keys_are_kept_predicates (i : String) (ents : List String)
    (c : Bool) (et : Option (List String)) (r : Bool) (ex : Option (List RDemo))
    (items : List RItem) (m : List (String × String))
    (htyped : optListTruthy et = true)
    (hm : (get_relations i ents c et r ex (ModelCall.ok items)).edge_type_map = some m)
    (kv : String × String) (hkv : kv ∈ m) :
    kv.2 ≠ "" ∧ ∃ s o, (s, kv.1, o) ∈
      (get_relations i ents c et r ex (ModelCall.ok items)).relations := by
  have h1 : (get_relations i ents c et r ex (ModelCall.ok items)).edge_type_map =
      some ((items.foldl (relationStep ents true) ([], [], 0)).2.1) := by
    simp [get_relations, htyped]
  have h2 : (get_relations i ents c et r ex (ModelCall.ok items)).relations =
      (items.foldl (relationStep ents true) ([], [], 0)).1 := by
    simp [get_relations, htyped]
  rw [h1] at hm
  rw [h2]
  exact relFold_map_sound ents items ([], [], 0)
    (fun _ h => absurd h (List.not_mem_nil _)) kv ((Option.some.inj hm).symm ▸ hkv)

/-- C7 witness at a concrete typed call. -/
theorem c7_witness :
    ("knows", "friendship").2 ≠ "" ∧ ∃ s o, (s, ("knows", "friendship").1, o) ∈
      (get_relations "t" ["Alice", "Bob"] false (some ["social"]) true none
        (ModelCall.ok [⟨some "Alice", some "knows", some "Bob",
          some "friendship"⟩])).relations :=
  c7_type_map_keys_are_kept_predicates "t" ["Alice", "Bob"] false (some ["social"])
    true none [⟨some "Alice", some "knows", some "Bob", some "friendship"⟩]
    [("knows", "friendship")] rfl (by decide) ("knows", "friendship") (by decide)

end KgGen
